import Mathlib

/-!
Verification development for the tool-table editor
(qtpyvcp/widgets/input_widgets/tool_table.py).

The embedding is shallow: the Python classes ItemDelegate, ToolItem,
ToolModel and ToolTable become pure Lean functions over an explicit
state, the state being the list of tool records (ToolModel.tool_list).
Python exceptions (IndexError from list indexing) are modelled with
Except, and Qt change notifications (beginInsertRows/endInsertRows,
beginRemoveRows/endRemoveRows, beginResetModel/endResetModel) are
modelled as an event trace: each completed notification is recorded
together with the store contents at the moment the end-signal is
delivered.  Python floats are modelled as rationals; none of the
verified properties depends on IEEE-754 specifics.
-/

set_option autoImplicit false

universe u

/-- Python exception kinds raised by the modelled code paths. -/
inductive PyErr where
  | indexError
  | ioError
  deriving DecidableEq

/-- A cell value: Python int, float (modelled as a rational), str, or None. -/
inductive Value where
  | vInt : Int → Value
  | vFloat : Rat → Value
  | vStr : String → Value
  | vNone : Value
  deriving DecidableEq

/-- One tool record: the row list stored in ToolModel.tool_list. -/
abbrev ToolRec := List Value

/-- Qt structural change notifications, as named in the spec. -/
inductive Notif where
  | rowsInserted : Int → Int → Notif
  | rowsRemoved : Int → Int → Notif
  | reset : Notif
  deriving DecidableEq

/-- A delivered notification paired with the store contents at delivery. -/
abbrev Event := Notif × List ToolRec

/-- The sparse table handed to the tooltable plugin by save_tool_table:
row position mapped to an association list from column key to value. -/
abbrev SavedTable := List (Nat × List (String × Value))

/-- Python list index adjustment: a negative index counts from the end;
the result is the adjusted non-negative index when in range, none when
the access would raise IndexError. -/
def pyAdjIdx (len : Nat) (i : Int) : Option Nat :=
  let j := if i < 0 then i + len else i
  if 0 ≤ j ∧ j < (len : Int) then some j.toNat else none

/-- ItemDelegate._padding, two spaces, prepended to text for display. -/
def padding : String := "  "

/-- Digits of a fractional part, left-padded with zeros to four places. -/
def pad4 (n : Nat) : String :=
  String.mk (List.replicate (4 - (toString n).length) '0') ++ toString n

/-- Rendering of a float rounded to four decimal places, the display
transform applied by the format string in ItemDelegate.displayText. -/
def format4 (q : Rat) : String :=
  let n : Int := round (q * 10000)
  let s := if n < 0 then "-" else ""
  s ++ toString (n.natAbs / 10000) ++ "." ++ pad4 (n.natAbs % 10000)

/-- ItemDelegate.displayText: ints print plainly, floats are rounded to
four decimals, everything else is prefixed with the two-space padding
(Python renders None as the string None). -/
def displayText : Value → String
  | .vInt n => toString n
  | .vFloat q => format4 q
  | .vStr s => padding ++ s
  | .vNone => padding ++ "None"

/-- Editor widgets produced by ItemDelegate.createEditor: a QSpinBox for
integer columns, a QDoubleSpinBox for float columns, a QLineEdit for text. -/
inductive Editor where
  | spin : Int → Editor
  | dspin : Rat → Editor
  | line : String → Editor

/-- ItemDelegate.setModelData: the value committed to the model is the
spin box value for numeric editors and the raw line-edit text for the
text editor; the display padding is never part of the committed value. -/
def setModelDataValue : Editor → Value
  | .spin n => .vInt n
  | .dspin q => .vFloat q
  | .line s => .vStr s

/-- ToolItem.child: a negative row is reset to 0 and returns the first
child, a row strictly greater than childCount returns the last child
(childItems with index childCount - 1), and any row in between falls
through both branches, so Python implicitly returns None.  Indexing an
empty child list raises IndexError. -/
def toolItemChild {α : Type u} (childItems : List α) (row : Int) : Except PyErr (Option α) :=
  if row < 0 then
    match childItems[0]? with
    | none => .error .indexError
    | some x => .ok (some x)
  else if (childItems.length : Int) < row then
    match childItems[childItems.length - 1]? with
    | none => .error .indexError
    | some x => .ok (some x)
  else
    .ok none

/-- QAbstractItemModel.hasIndex against the overridden rowCount
(length of tool_list) and columnCount (length of table_header). -/
def hasIndex (nrows ncols : Nat) (row col : Int) : Bool :=
  decide (0 ≤ row) && decide (row < (nrows : Int)) &&
  decide (0 ≤ col) && decide (col < (ncols : Int))

/-- ToolModel.index, reduced to validity of the produced index: after
the hasIndex guard, the index is valid exactly when
parentItem.child(row) returns a (truthy) item rather than None. -/
def modelIndexIsValid {α : Type u} (nrows ncols : Nat) (childItems : List α)
    (row col : Int) : Except PyErr Bool :=
  if hasIndex nrows ncols row col then
    match toolItemChild childItems row with
    | .error e => .error e
    | .ok c => .ok c.isSome
  else
    .ok false

/-- Modelled from the spec: the column count of the reference domain.
The source takes table_header from the tooltable plugin, which is not
part of this file set; the spec fixes six columns (tool-number, pocket,
z-offset, diameter, radius, comment). -/
def numColumns : Nat := 6

/-- ToolModel.setData: tool_list[row][col] = value; return True.
Both subscripts follow Python list semantics (negative wrap-around,
IndexError when out of range); the value is stored verbatim. -/
def setData (l : List ToolRec) (row col : Int) (v : Value) :
    Except PyErr (List ToolRec × Bool) :=
  match pyAdjIdx l.length row with
  | none => .error .indexError
  | some j =>
    match pyAdjIdx (l.getD j []).length col with
    | none => .error .indexError
    | some k => .ok (l.set j ((l.getD j []).set k v), true)

/-- ToolModel.load_tool_table: del tool_list[:] then append every record
coming from the tooltable plugin, one by one; no notification is emitted. -/
def load_tool_table (l incoming : List ToolRec) : List ToolRec × List Event :=
  (incoming.foldl (fun acc t => acc ++ [t]) [], [])

/-- The short column keys used by ToolModel.save_tool_table. -/
def tool_header : List String := ["T", "P", "Z", "D", "R"]

/-- The condition item is not None and item != "" under which
save_tool_table keeps a cell. -/
def cellKept : Value → Bool
  | .vNone => false
  | .vStr s => !(s == "")
  | _ => true

/-- Inner loop of ToolModel.save_tool_table over the column indices of
one row: read the cell (IndexError if the record is short), and when the
cell is kept, look up its short key in tool_header (IndexError when the
column index reaches past the key list). -/
def saveRowAux (r : ToolRec) : List Nat → Except PyErr (List (String × Value))
  | [] => .ok []
  | c :: cs =>
    match r[c]? with
    | none => .error .indexError
    | some v =>
      if cellKept v then
        match tool_header[c]? with
        | none => .error .indexError
        | some k =>
          match saveRowAux r cs with
          | .error e => .error e
          | .ok rest => .ok ((k, v) :: rest)
      else
        saveRowAux r cs

/-- One row of the sparse table built by save_tool_table. -/
def saveRow (r : ToolRec) : Except PyErr (List (String × Value)) :=
  saveRowAux r (List.range numColumns)

/-- Outer loop of save_tool_table over the row indices. -/
def saveRows : List ToolRec → Nat → Except PyErr SavedTable
  | [], _ => .ok []
  | r :: rs, i =>
    match saveRow r with
    | .error e => .error e
    | .ok row =>
      match saveRows rs (i + 1) with
      | .error e => .error e
      | .ok rest => .ok ((i, row) :: rest)

/-- ToolModel.save_tool_table: build the sparse per-row mapping keyed by
row position; the store itself is never modified. -/
def save_tool_table (l : List ToolRec) : Except PyErr SavedTable :=
  saveRows l 0

/-- ToolModel.newTool: position = row + dir, clamped to 0 when negative
(an over-large position is not clamped here); beginInsertRows announces
the span position..position, and Python list.insert places the record at
min position (length l), appending when the position is past the end. -/
def newTool (l : List ToolRec) (row dir : Int) (mkTool : Int → ToolRec) :
    List ToolRec × List Event :=
  let p0 := row + dir
  let position := if p0 < 0 then 0 else p0
  let idx := min position.toNat l.length
  let l' := l.take idx ++ mkTool position :: l.drop idx
  (l', [(Notif.rowsInserted position position, l')])

/-- ToolModel.removeTool: beginRemoveRows(row, row) then tool_list.pop(row).
Python pop accepts negative rows counting from the end and raises
IndexError beyond that range (the dangling begin signal of the error
path is not a completed notification, so the trace stays empty). -/
def removeTool (l : List ToolRec) (row : Int) :
    Except PyErr (List ToolRec × List Event) :=
  match pyAdjIdx l.length row with
  | none => .error .indexError
  | some j =>
    let l' := l.take j ++ l.drop (j + 1)
    .ok (l', [(Notif.rowsRemoved row row, l')])

/-- ToolModel.clearTable: beginResetModel, del tool_list[:], endResetModel;
a single reset notification delivered with the store already empty. -/
def clearTable (l : List ToolRec) : List ToolRec × List Event :=
  ([], [(Notif.reset, [])])

/-- ToolTable.loadToolTable body once a file is present: clearTable on
the model followed by load_tool_table. -/
def loadToolTable (l incoming : List ToolRec) : List ToolRec × List Event :=
  let s1 := clearTable l
  let s2 := load_tool_table s1.1 incoming
  (s2.1, s1.2 ++ s2.2)

/-- ToolTable.saveToolTable body once confirmed: save_tool_table builds
the sparse table from the store (raising propagates), the tooltable
plugin write runs (modelled from the spec as RecordSource.write, which
may fail), and only when neither step raised does cmd.load_tool_table
run (the ControllerReload).  Returns the final store contents, whether
the reload was invoked, and the error if one was raised. -/
def saveToolTableBridge (l : List ToolRec) (write : SavedTable → Except PyErr Unit) :
    List ToolRec × Bool × Option PyErr :=
  match save_tool_table l with
  | .error e => (l, false, some e)
  | .ok table =>
    match write table with
    | .error e => (l, false, some e)
    | .ok _ => (l, true, none)

/-- ToolTable.insertToolAbove: newTool(selected, -1). -/
def insertToolAbove (l : List ToolRec) (selected : Int) (mkTool : Int → ToolRec) :
    List ToolRec × List Event :=
  newTool l selected (-1) mkTool

/-- ToolTable.insertToolBelow: newTool(selected, +1). -/
def insertToolBelow (l : List ToolRec) (selected : Int) (mkTool : Int → ToolRec) :
    List ToolRec × List Event :=
  newTool l selected 1 mkTool

/-- The loop body of ToolTable.removeAllTools: successive removeTool
calls, threading the store and concatenating the event traces. -/
def removeLoop (l : List ToolRec) : List Int → Except PyErr (List ToolRec × List Event)
  | [] => .ok (l, [])
  | i :: is =>
    match removeTool l i with
    | .error e => .error e
    | .ok (l', ev) =>
      match removeLoop l' is with
      | .error e => .error e
      | .ok (l'', evs) => .ok (l'', ev ++ evs)

/-- ToolTable.removeAllTools with the confirmation dialog skipped:
for i in reversed(range(rowCount())): removeTool(i). -/
def removeAllTools (l : List ToolRec) : Except PyErr (List ToolRec × List Event) :=
  removeLoop l ((List.range l.length).reverse.map (fun (i : Nat) => (i : Int)))

/-! ### Helper lemmas -/

lemma foldl_snoc_eq {α : Type u} (l init : List α) :
    l.foldl (fun acc t => acc ++ [t]) init = init ++ l := by
  induction l generalizing init with
  | nil => simp
  | cons x xs ih => simp [List.foldl_cons, ih]

lemma pyAdjIdx_nonneg (len : Nat) (i : Int) (h1 : 0 ≤ i) (h2 : i < (len : Int)) :
    pyAdjIdx len i = some i.toNat := by
  simp only [pyAdjIdx]
  rw [if_neg (not_lt.mpr h1), if_pos ⟨h1, h2⟩]

lemma pyAdjIdx_coe (len j : Nat) (h : j < len) : pyAdjIdx len (j : Int) = some j := by
  rw [pyAdjIdx_nonneg len j (by omega) (by omega)]
  simp

lemma pyAdjIdx_neg (len : Nat) (i : Int) (h1 : -(len : Int) ≤ i) (h2 : i < 0) :
    pyAdjIdx len i = some (i + len).toNat := by
  simp only [pyAdjIdx]
  rw [if_pos h2, if_pos (by constructor <;> omega)]

lemma pyAdjIdx_none (len : Nat) (i : Int) (h : i < -(len : Int) ∨ (len : Int) ≤ i) :
    pyAdjIdx len i = none := by
  simp only [pyAdjIdx]
  rcases h with h | h
  · have hc : i < 0 := by omega
    rw [if_pos hc, if_neg (by omega : ¬(0 ≤ i + (len : Int) ∧ i + (len : Int) < (len : Int)))]
  · have hc : ¬ i < 0 := by omega
    rw [if_neg hc, if_neg (by omega : ¬(0 ≤ i ∧ i < (len : Int)))]

lemma getElem?_insert_self {α : Type u} (l : List α) (x : α) (n : Nat) (h : n ≤ l.length) :
    (l.take n ++ x :: l.drop n)[n]? = some x := by
  have hlen : (l.take n).length = n := by
    rw [List.length_take]
    omega
  rw [List.getElem?_append_right (by omega), hlen]
  simp

lemma erase_length {α : Type u} (l : List α) (j : Nat) (h : j < l.length) :
    (l.take j ++ l.drop (j + 1)).length + 1 = l.length := by
  simp only [List.length_append, List.length_take, List.length_drop]
  omega

lemma clampNeg_eq_max (p0 : Int) : (if p0 < 0 then 0 else p0) = max p0 0 := by
  rcases lt_or_le p0 0 with h | h
  · rw [if_pos h, max_eq_right h.le]
  · rw [if_neg (not_lt.mpr h), max_eq_left h]

lemma newTool_fst_eq (l : List ToolRec) (row dir : Int) (mkTool : Int → ToolRec) :
    (newTool l row dir mkTool).1 =
      l.take (min (max (row + dir) 0).toNat l.length) ++
        mkTool (max (row + dir) 0) ::
          l.drop (min (max (row + dir) 0).toNat l.length) ∧
    (newTool l row dir mkTool).2 =
      [(Notif.rowsInserted (max (row + dir) 0) (max (row + dir) 0),
        (newTool l row dir mkTool).1)] := by
  simp [newTool, clampNeg_eq_max]

lemma mem_range_reverse_lt {a n : Nat} (ha : a ∈ (List.range n).reverse) : a < n :=
  List.mem_range.mp (List.mem_reverse.mp ha)

lemma newTool_get_inserted (l : List ToolRec) (row dir : Int) (mkTool : Int → ToolRec) :
    ((newTool l row dir mkTool).1)[min (max (row + dir) 0).toNat l.length]? =
      some (mkTool (max (row + dir) 0)) := by
  rw [(newTool_fst_eq l row dir mkTool).1]
  exact getElem?_insert_self l _ _ (min_le_right _ _)

lemma setData_ok (l : List ToolRec) (j k : Nat) (v : Value)
    (hj : j < l.length) (hk : k < (l.getD j []).length) :
    setData l (j : Int) (k : Int) v = .ok (l.set j ((l.getD j []).set k v), true) := by
  simp only [setData, pyAdjIdx_coe l.length j hj, pyAdjIdx_coe (l.getD j []).length k hk]

lemma removeLoop_rev (n : Nat) : ∀ l : List ToolRec, l.length = n →
    removeLoop l ((List.range n).reverse.map (fun (i : Nat) => (i : Int))) =
      .ok ([], (List.range n).reverse.map
        (fun (i : Nat) => ((Notif.rowsRemoved i i, l.take i) : Event))) := by
  induction n with
  | zero =>
    intro l h
    rw [List.length_eq_zero] at h
    subst h
    rfl
  | succ n ih =>
    intro l h
    rw [List.range_succ, List.reverse_append, List.reverse_singleton]
    simp only [List.singleton_append, List.map_cons]
    have hrec : removeTool l ((n : Nat) : Int) =
        .ok (l.take n, [(Notif.rowsRemoved n n, l.take n)]) := by
      have hdrop : l.drop (n + 1) = [] := List.drop_eq_nil_of_le (by omega)
      simp only [removeTool, pyAdjIdx_coe l.length n (by omega), hdrop, List.append_nil]
    have htake : (l.take n).length = n := by
      rw [List.length_take]
      omega
    have hih := ih (l.take n) htake
    have hmap : (List.range n).reverse.map
          (fun (i : Nat) => ((Notif.rowsRemoved i i, (l.take n).take i) : Event)) =
        (List.range n).reverse.map
          (fun (i : Nat) => ((Notif.rowsRemoved i i, l.take i) : Event)) := by
      apply List.map_congr_left
      intro a ha
      have haa : a < n := mem_range_reverse_lt ha
      rw [List.take_take, min_eq_left haa.le]
    simp only [removeLoop, hrec, hih, hmap, List.singleton_append]

/-! ### Claim theorems -/

/-- C1: save_tool_table is meant to serialize, for every row, each
non-absent/non-empty cell of all six reference-domain columns under its
short column key, so a row with a non-empty comment should serialize the
comment rather than fail.  The code iterates over all six columns but
tool_header carries only the five keys T, P, Z, D, R, so serializing a
row whose comment (column 5) is non-empty raises IndexError; with the
comment empty the same row serializes sparsely, comment omitted. -/
theorem save_tool_table_crashes_on_comment :
    save_tool_table [[Value.vInt 1, Value.vInt 1, Value.vFloat 0, Value.vFloat 0,
        Value.vFloat 0, Value.vStr "end mill"]] = .error PyErr.indexError ∧
    save_tool_table [[Value.vInt 1, Value.vInt 1, Value.vFloat 0, Value.vFloat 0,
        Value.vFloat 0, Value.vStr ""]] =
      .ok [(0, [("T", Value.vInt 1), ("P", Value.vInt 1), ("Z", Value.vFloat 0),
        ("D", Value.vFloat 0), ("R", Value.vFloat 0)])] :=
  ⟨rfl, rfl⟩

/-- C2 (amended): inserting above the reference row ref places the new
record at index max(ref - 1, 0) clamped to the size, one position higher
than the insertAt(ref) the claim states; inserting below places it at
index ref + 1 clamped, as claimed.  Inserting above row 0 still lands at
row 0 and inserting below the last row still appends. -/
theorem insertAboveBelow_positions (l : List ToolRec) (ref : Int) (mkTool : Int → ToolRec) :
    ((insertToolAbove l ref mkTool).1)[min (max (ref - 1) 0).toNat l.length]? =
      some (mkTool (max (ref - 1) 0)) ∧
    ((insertToolBelow l ref mkTool).1)[min (max (ref + 1) 0).toNat l.length]? =
      some (mkTool (max (ref + 1) 0)) ∧
    ((insertToolAbove l 0 mkTool).1)[0]? = some (mkTool 0) ∧
    (insertToolBelow l ((l.length : Int) - 1) mkTool).1 = l ++ [mkTool (l.length : Int)] := by
  refine ⟨?_, ?_, ?_, ?_⟩
  · have h := newTool_get_inserted l ref (-1) mkTool
    simpa [insertToolAbove, sub_eq_add_neg] using h
  · exact newTool_get_inserted l ref 1 mkTool
  · have h := newTool_get_inserted l 0 (-1) mkTool
    have e1 : max ((0 : Int) + -1) 0 = 0 := by decide
    rw [e1] at h
    simpa [insertToolAbove] using h
  · have h := (newTool_fst_eq l ((l.length : Int) - 1) 1 mkTool).1
    have hmax : max ((l.length : Int) - 1 + 1) 0 = (l.length : Int) := by
      rw [sub_add_cancel]
      exact max_eq_left (Int.natCast_nonneg _)
    rw [hmax] at h
    simpa [insertToolBelow, List.take_length, List.drop_length] using h

/-- C2 counterexample: with rows a, b, c and reference row 2,
insert-above places the new record (built with position hint 1) at index
1, not at index 2 as the claim states; index 2 still holds the old row b. -/
theorem insertAbove_counterexample :
    (insertToolAbove [[Value.vStr "a"], [Value.vStr "b"], [Value.vStr "c"]] 2
        (fun p => [Value.vInt p])).1 =
      [[Value.vStr "a"], [Value.vInt 1], [Value.vStr "b"], [Value.vStr "c"]] ∧
    ((insertToolAbove [[Value.vStr "a"], [Value.vStr "b"], [Value.vStr "c"]] 2
        (fun p => [Value.vInt p])).1)[2]? ≠ some [Value.vInt 1] :=
  ⟨rfl, by decide⟩

/-- C3: the save bridge leaves the store exactly as it was in every
outcome, and the controller reload runs exactly when the sparse table
was built and the RecordSource write succeeded; in particular a failing
write (or the IndexError raised while building the table) aborts before
the reload, so retrying the save is safe. -/
theorem saveBridge_failure_no_reload (l : List ToolRec)
    (write : SavedTable → Except PyErr Unit) :
    (saveToolTableBridge l write).1 = l ∧
    ((saveToolTableBridge l write).2.1 = true ↔
      ∃ t, save_tool_table l = .ok t ∧ write t = .ok ()) := by
  rcases hs : save_tool_table l with e | t
  · have hb : saveToolTableBridge l write = (l, false, some e) := by
      simp only [saveToolTableBridge, hs]
    rw [hb]
    refine ⟨rfl, ?_⟩
    constructor
    · intro hf
      exact Bool.noConfusion hf
    · rintro ⟨t, ht, -⟩
      exact Except.noConfusion ht
  · rcases hw : write t with e | u
    · have hb : saveToolTableBridge l write = (l, false, some e) := by
        simp only [saveToolTableBridge, hs, hw]
      rw [hb]
      refine ⟨rfl, ?_⟩
      constructor
      · intro hf
        exact Bool.noConfusion hf
      · rintro ⟨t', ht', hw'⟩
        cases Except.ok.inj ht'
        rw [hw] at hw'
        exact Except.noConfusion hw'
    · cases u
      have hb : saveToolTableBridge l write = (l, true, none) := by
        simp only [saveToolTableBridge, hs, hw]
      rw [hb]
      exact ⟨rfl, ⟨fun _ => ⟨t, rfl, hw⟩, fun _ => rfl⟩⟩

/-- C4 (amended): ToolModel.setData performs no coercion and no
validation: for every in-range row and column it stores the raw value
verbatim in place and returns True, never surfacing a ValidationError;
bounds are enforced only by the editor widgets that ItemDelegate
creates, not by the store. -/
theorem setData_stores_verbatim (l : List ToolRec) (j k : Nat) (v : Value)
    (hj : j < l.length) (hk : k < (l.getD j []).length) :
    setData l (j : Int) (k : Int) v = .ok (l.set j ((l.getD j []).set k v), true) :=
  setData_ok l j k v hj hk

/-- C4 witness: a concrete in-range edit stores the committed value. -/
theorem setData_stores_verbatim_witness :
    setData [[Value.vInt 1, Value.vInt 1, Value.vFloat 0, Value.vFloat 0,
        Value.vFloat 0, Value.vStr ""]] 0 0 (Value.vInt 50) =
      .ok ([[Value.vInt 50, Value.vInt 1, Value.vFloat 0, Value.vFloat 0,
        Value.vFloat 0, Value.vStr ""]], true) := by
  have h := setData_stores_verbatim [[Value.vInt 1, Value.vInt 1, Value.vFloat 0,
    Value.vFloat 0, Value.vFloat 0, Value.vStr ""]] 0 0 (Value.vInt 50)
    (by decide) (by decide)
  simpa using h

/-- C4 counterexample: committing the out-of-bounds integer 150 to the
tool-number column succeeds: the cell is overwritten with 150 and True
is returned, while the claim requires the record to be left unmodified
and a ValidationError to be surfaced. -/
theorem setData_no_validation_counterexample :
    setData [[Value.vInt 1, Value.vInt 1, Value.vFloat 0, Value.vFloat 0,
        Value.vFloat 0, Value.vStr ""]] 0 0 (Value.vInt 150) =
      .ok ([[Value.vInt 150, Value.vInt 1, Value.vFloat 0, Value.vFloat 0,
        Value.vFloat 0, Value.vStr ""]], true) ∧
    ([[Value.vInt 150, Value.vInt 1, Value.vFloat 0, Value.vFloat 0,
        Value.vFloat 0, Value.vStr ""]] : List ToolRec) ≠
      [[Value.vInt 1, Value.vInt 1, Value.vFloat 0, Value.vFloat 0,
        Value.vFloat 0, Value.vStr ""]] :=
  ⟨rfl, by decide⟩

/-- C5 (amended): newTool never fails and a negative position is clamped
to 0; the record always lands at index min(position, size), so an
over-large position appends as claimed, but the RowsInserted
notification spans the merely negative-clamped position, which is not
re-clamped to the size; the notification is delivered with the store
already in its post-insertion state. -/
theorem newTool_clamps_and_notifies (l : List ToolRec) (row dir : Int)
    (mkTool : Int → ToolRec) :
    (newTool l row dir mkTool).1.length = l.length + 1 ∧
    ((newTool l row dir mkTool).1)[min (max (row + dir) 0).toNat l.length]? =
      some (mkTool (max (row + dir) 0)) ∧
    (newTool l row dir mkTool).2 =
      [(Notif.rowsInserted (max (row + dir) 0) (max (row + dir) 0),
        (newTool l row dir mkTool).1)] := by
  refine ⟨?_, newTool_get_inserted l row dir mkTool, (newTool_fst_eq l row dir mkTool).2⟩
  rw [(newTool_fst_eq l row dir mkTool).1]
  simp only [List.length_append, List.length_cons, List.length_take, List.length_drop]
  omega

/-- C5 counterexample: inserting at position 6 into a one-row store
appends the record at index 1 (the clamped index), but the notification
announces the span 6..6, not the clamped 1..1. -/
theorem newTool_notification_counterexample :
    newTool [[Value.vStr "a"]] 5 1 (fun p => [Value.vInt p]) =
      ([[Value.vStr "a"], [Value.vInt 6]],
        [(Notif.rowsInserted 6 6, [[Value.vStr "a"], [Value.vInt 6]])]) ∧
    (newTool [[Value.vStr "a"]] 5 1 (fun p => [Value.vInt p])).2 ≠
      [(Notif.rowsInserted 1 1, [[Value.vStr "a"], [Value.vInt 6]])] :=
  ⟨rfl, by decide⟩

/-- C6 (amended): removeTool removes exactly the addressed record for
every row in [-size, size) following Python indexing — a negative row in
[-size, -1] succeeds, removing from the end, instead of failing as the
claim states — reducing the size by exactly 1, shifting later rows down
by one and emitting RowsRemoved over row..row; only rows outside
[-size, size) fail with IndexError. -/
theorem removeTool_ranges (l : List ToolRec) (row : Int) :
    (0 ≤ row → row < (l.length : Int) →
      removeTool l row = .ok (l.take row.toNat ++ l.drop (row.toNat + 1),
        [(Notif.rowsRemoved row row, l.take row.toNat ++ l.drop (row.toNat + 1))]) ∧
      (l.take row.toNat ++ l.drop (row.toNat + 1)).length + 1 = l.length) ∧
    (-(l.length : Int) ≤ row → row < 0 →
      removeTool l row =
        .ok (l.take (row + l.length).toNat ++ l.drop ((row + l.length).toNat + 1),
          [(Notif.rowsRemoved row row,
            l.take (row + l.length).toNat ++ l.drop ((row + l.length).toNat + 1))]) ∧
      (l.take (row + l.length).toNat ++
        l.drop ((row + l.length).toNat + 1)).length + 1 = l.length) ∧
    ((row < -(l.length : Int) ∨ (l.length : Int) ≤ row) →
      removeTool l row = .error PyErr.indexError) := by
  refine ⟨fun h1 h2 => ⟨?_, ?_⟩, fun h1 h2 => ⟨?_, ?_⟩, fun h => ?_⟩
  · simp only [removeTool, pyAdjIdx_nonneg l.length row h1 h2]
  · exact erase_length l row.toNat (by omega)
  · simp only [removeTool, pyAdjIdx_neg l.length row h1 h2]
  · exact erase_length l (row + l.length).toNat (by omega)
  · simp only [removeTool, pyAdjIdx_none l.length row h]

/-- C6 witness: on a two-row store, removal at row 0 removes the first
row and removal at row 5 raises IndexError. -/
theorem removeTool_ranges_witness :
    removeTool [[Value.vStr "a"], [Value.vStr "b"]] 0 =
      .ok ([[Value.vStr "b"]], [(Notif.rowsRemoved 0 0, [[Value.vStr "b"]])]) ∧
    removeTool [[Value.vStr "a"], [Value.vStr "b"]] 5 = .error PyErr.indexError := by
  constructor
  · have h := ((removeTool_ranges [[Value.vStr "a"], [Value.vStr "b"]] 0).1
      (by decide) (by decide)).1
    simpa using h
  · exact (removeTool_ranges [[Value.vStr "a"], [Value.vStr "b"]] 5).2.2
      (Or.inr (by decide))

/-- C6 counterexample: removeTool with row -1 on a two-row store
succeeds, removing the last record and shrinking the store, where the
claim requires failure with OutOfRange for every negative row and an
unchanged size. -/
theorem removeTool_negative_counterexample :
    removeTool [[Value.vStr "a"], [Value.vStr "b"]] (-1) =
      .ok ([[Value.vStr "a"]], [(Notif.rowsRemoved (-1) (-1), [[Value.vStr "a"]])]) ∧
    removeTool [[Value.vStr "a"], [Value.vStr "b"]] (-1) ≠ .error PyErr.indexError :=
  ⟨rfl, fun h => Except.noConfusion h⟩

/-- C7 (amended): the load path replaces the contents with the incoming
records in order — load_tool_table itself equals clear-then-append and
emits no notification — and the surrounding loadToolTable announces
exactly one Reset, but that Reset is delivered by clearTable while the
store is still empty, before repopulation, not with the store in its
final post-replacement state. -/
theorem loadToolTable_replaceAll (l incoming : List ToolRec) :
    loadToolTable l incoming = (incoming, [(Notif.reset, [])]) ∧
    load_tool_table l incoming = (incoming, []) := by
  have hf : incoming.foldl (fun acc t => acc ++ [t]) ([] : List ToolRec) = incoming := by
    rw [foldl_snoc_eq]
    simp
  constructor
  · simp only [loadToolTable, clearTable, load_tool_table, hf, List.append_nil]
  · simp only [load_tool_table, hf]

/-- C7 counterexample: loading one record into an empty store ends with
that record stored, but the single Reset was delivered with the store
empty — the trace differs from a Reset carrying the final state. -/
theorem loadReset_state_counterexample :
    (loadToolTable [] [[Value.vInt 7]]).1 = [[Value.vInt 7]] ∧
    (loadToolTable [] [[Value.vInt 7]]).2 = [(Notif.reset, [])] ∧
    (loadToolTable [] [[Value.vInt 7]]).2 ≠ [(Notif.reset, [[Value.vInt 7]])] :=
  ⟨rfl, rfl, by decide⟩

/-- C8: rounding a float to four decimals and padding text are
display-only transforms of ItemDelegate.displayText: a value committed
through an editor is stored by setData exactly as committed — the text
editor commits its raw text with no padding and the spin box commits its
numeric value at full precision — while displayText alone prepends the
padding to text and rounds floats, leaving the stored value untouched. -/
theorem display_only_formatting (l : List ToolRec) (j k : Nat) (s : String) (q : Rat)
    (hj : j < l.length) (hk : k < (l.getD j []).length) :
    setData l (j : Int) (k : Int) (setModelDataValue (Editor.line s)) =
      .ok (l.set j ((l.getD j []).set k (Value.vStr s)), true) ∧
    setData l (j : Int) (k : Int) (setModelDataValue (Editor.dspin q)) =
      .ok (l.set j ((l.getD j []).set k (Value.vFloat q)), true) ∧
    displayText (Value.vStr s) = padding ++ s ∧
    displayText (Value.vFloat q) = format4 q :=
  ⟨setData_ok l j k _ hj hk, setData_ok l j k _ hj hk, rfl, rfl⟩

/-- C8 witness: a concrete text edit stores the unpadded text and a
concrete float edit stores the full-precision rational, while display
applies padding respectively rounding. -/
theorem display_only_formatting_witness :
    setData [[Value.vStr "x"]] 0 0 (setModelDataValue (Editor.line "hi")) =
      .ok ([[Value.vStr "hi"]], true) ∧
    setData [[Value.vStr "x"]] 0 0 (setModelDataValue (Editor.dspin (3 / 2))) =
      .ok ([[Value.vFloat (3 / 2)]], true) ∧
    displayText (Value.vStr "hi") = padding ++ "hi" ∧
    displayText (Value.vFloat (3 / 2)) = format4 (3 / 2) := by
  have h := display_only_formatting [[Value.vStr "x"]] 0 0 "hi" (3 / 2)
    (by decide) (by decide)
  simpa using h

/-- C9 (amended): for an item with at least one child, child(row)
returns None for every row in [0, childCount], the first child for
every negative row and the last child for every row strictly greater
than childCount — as the claim states — but the claimed consequence
fails: ToolModel.index yields an invalid index only for in-range rows
that do not exceed childCount; for an in-range row strictly beyond
childCount, child returns the last child and index is valid. -/
theorem toolItemChild_index_ranges {α : Type u} (items : List α) (row col : Int)
    (nrows ncols : Nat) :
    (0 ≤ row → row ≤ (items.length : Int) → toolItemChild items row = .ok none) ∧
    (∀ x xs, items = x :: xs → row < 0 → toolItemChild items row = .ok (some x)) ∧
    (items ≠ [] → (items.length : Int) < row →
      ∃ x, items.getLast? = some x ∧ toolItemChild items row = .ok (some x)) ∧
    (0 ≤ row → row < (nrows : Int) → row ≤ (items.length : Int) →
      0 ≤ col → col < (ncols : Int) →
      modelIndexIsValid nrows ncols items row col = .ok false) ∧
    (items ≠ [] → (items.length : Int) < row → row < (nrows : Int) →
      0 ≤ col → col < (ncols : Int) →
      modelIndexIsValid nrows ncols items row col = .ok true) := by
  have hnone : 0 ≤ row → row ≤ (items.length : Int) →
      toolItemChild items row = .ok none := by
    intro h1 h2
    unfold toolItemChild
    rw [if_neg (not_lt.mpr h1), if_neg (not_lt.mpr h2)]
  have hfirst : ∀ (x : α) (xs : List α), items = x :: xs → row < 0 →
      toolItemChild items row = .ok (some x) := by
    intro x xs he hlt
    subst he
    unfold toolItemChild
    rw [if_pos hlt, List.getElem?_cons_zero]
  have hlast : items ≠ [] → (items.length : Int) < row →
      ∃ x, items.getLast? = some x ∧ toolItemChild items row = .ok (some x) := by
    intro hne hlt
    obtain ⟨x, hx⟩ := Option.isSome_iff_exists.mp (List.getLast?_isSome.mpr hne)
    refine ⟨x, hx, ?_⟩
    have hg : items[items.length - 1]? = some x := by
      rw [← List.getLast?_eq_getElem?]
      exact hx
    unfold toolItemChild
    rw [if_neg (by omega : ¬ row < 0), if_pos hlt, hg]
  have hhas : 0 ≤ row → row < (nrows : Int) → 0 ≤ col → col < (ncols : Int) →
      hasIndex nrows ncols row col = true := by
    intro h1 h2 h3 h4
    simp [hasIndex, h1, h2, h3, h4]
  refine ⟨hnone, hfirst, hlast, ?_, ?_⟩
  · intro h1 h2 h3 h4 h5
    unfold modelIndexIsValid
    rw [if_pos (hhas h1 h2 h4 h5), hnone h1 h3]
    rfl
  · intro hne hlt h2 h3 h4
    obtain ⟨x, hx, hc⟩ := hlast hne hlt
    unfold modelIndexIsValid
    rw [if_pos (hhas (by omega) h2 h3 h4), hc]
    rfl

/-- C9 witness: with one child and three stored rows, child is None at
rows 1 (in [0, childCount]), the first child at row -2, the last child
at row 5; index is invalid at in-range row 1 yet valid at in-range
row 2. -/
theorem toolItemChild_index_ranges_witness :
    toolItemChild ([7] : List Nat) 1 = .ok none ∧
    toolItemChild ([7] : List Nat) (-2) = .ok (some 7) ∧
    toolItemChild ([7] : List Nat) 5 = .ok (some 7) ∧
    modelIndexIsValid 3 6 ([7] : List Nat) 1 0 = .ok false ∧
    modelIndexIsValid 3 6 ([7] : List Nat) 2 0 = .ok true := by
  refine ⟨(toolItemChild_index_ranges ([7] : List Nat) 1 0 3 6).1 (by decide) (by decide),
    (toolItemChild_index_ranges ([7] : List Nat) (-2) 0 3 6).2.1 7 [] rfl (by decide),
    ?_,
    (toolItemChild_index_ranges ([7] : List Nat) 1 0 3 6).2.2.2.1 (by decide) (by decide)
      (by decide) (by decide) (by decide),
    (toolItemChild_index_ranges ([7] : List Nat) 2 0 3 6).2.2.2.2 (by decide) (by decide)
      (by decide) (by decide) (by decide)⟩
  obtain ⟨x, hx, hc⟩ := (toolItemChild_index_ranges ([7] : List Nat) 5 0 3 6).2.2.1
    (by decide) (by decide)
  have h7 : ([7] : List Nat).getLast? = some 7 := rfl
  rw [h7] at hx
  cases Option.some.inj hx
  exact hc

/-- C9 counterexample: with a single child (the state after one load of
a three-tool table) the in-range row 2 exceeds childCount = 1, so
child(2) returns the last child and ToolModel.index produces a valid
index, not the invalid index the claim asserts for every in-range row. -/
theorem modelIndex_valid_counterexample :
    modelIndexIsValid 3 6 ([()] : List Unit) 2 0 = .ok true ∧
    modelIndexIsValid 3 6 ([()] : List Unit) 2 0 ≠ .ok false :=
  ⟨rfl, fun h => Bool.noConfusion (Except.ok.inj h)⟩

/-- C10: removeAllTools with confirmation skipped removes rows one at a
time in strictly decreasing index order — the trace is one RowsRemoved
notification per original row, at indices size-1 down to 0, never a
Reset — and it ends in the empty store, the same final state clearTable
produces. -/
theorem removeAllTools_matches_clearTable (l : List ToolRec) :
    removeAllTools l =
      .ok ([], (List.range l.length).reverse.map
        (fun (i : Nat) => ((Notif.rowsRemoved i i, l.take i) : Event))) ∧
    (clearTable l).1 = [] := by
  refine ⟨?_, rfl⟩
  unfold removeAllTools
  exact removeLoop_rev l.length l rfl
